import Mathlib

/-!
Verification of the protocol core of `sofar2PVO` (files `sofarDevice.py` and
`sofar2PVO.py`).  The Python source is shallowly embedded: bytes are `Nat`
values below 256, byte strings are `List Nat`, Python dictionaries are
association lists, the decoded engineering values are rationals, and the
socket I/O performed by one poll is an explicit oracle of connect, send and
receive outcomes consumed in order.  All definitions follow the source
line by line; comments cite the corresponding lines of `sofarDevice.py`.
-/

namespace Sofar

set_option synthInstance.maxSize 1024

set_option maxRecDepth 8192

/-! ### Python primitives used by the source -/

/-- Base-16 digits of `n`, most significant first, empty for 0.  The fuel
argument (any value at least `n`) only makes the recursion structural. -/
def hexDigitsAux : Nat → Nat → List Nat
  | 0, _ => []
  | fuel + 1, n => if n = 0 then [] else hexDigitsAux fuel (n / 16) ++ [n % 16]

/-- Digit list (most significant first) of the Python expression `hex(n)`
with the `0x` prefix removed: `hex(0) = "0x0"` gives `[0]`, otherwise the
base-16 digits of `n` without leading zeros. -/
def hexDigits (n : Nat) : List Nat :=
  if n = 0 then [0] else hexDigitsAux n n


/-- Python `str.zfill(4)` acting on a digit list: pad on the left with
zeros to length at least 4. -/
def zfill4 (ds : List Nat) : List Nat :=
  List.replicate (4 - ds.length) 0 ++ ds

/-- Python `bytearray.fromhex` / `binascii.unhexlify` on a list of hex
digits: consume the digits two at a time, forming one byte from each pair;
an odd number of digits raises `ValueError`, modelled as `none`. -/
def fromhexPairs : List Nat → Option (List Nat)
  | [] => some []
  | [_] => none
  | d1 :: d2 :: rest => (fromhexPairs rest).map (fun bs => (d1 * 16 + d2) :: bs)

/-- Python slice assignment `l[a:b] = r` on a `bytearray` (with `a ≤ b`):
the elements at positions `a, …, b-1` are replaced by `r`, which may change
the total length.  `List.take`/`List.drop` clamp exactly as Python slices
do. -/
def sliceAssign (l : List Nat) (a b : Nat) (r : List Nat) : List Nat :=
  l.take a ++ r ++ l.drop b

/-- Python slice `d[a:b]` (for `a ≤ b`), clamped at the ends like Python. -/
def slice (d : List Nat) (a b : Nat) : List Nat :=
  (d.drop a).take (b - a)

/-- Python truthiness of a string: every nonempty string is truthy.  The
source passes the strings "False" and "True" as the `signed` keyword of
`int.from_bytes`; both are nonempty, hence both are truthy. -/
def pyTruthy (s : String) : Bool :=
  s != ""

/-! ### CRC-16/MODBUS (`libscrc.modbus`) -/

/-- One shift-xor round of CRC-16/MODBUS: reflected polynomial `0xA001`. -/
def crcRound (c : Nat) : Nat :=
  if c % 2 = 1 then (c / 2) ^^^ 0xA001 else c / 2

/-- Absorb one byte into the CRC state: xor it in, then run 8 rounds. -/
def crcByteStep (c b : Nat) : Nat :=
  crcRound^[8] (c ^^^ b)

/-- `libscrc.modbus`: CRC-16/MODBUS of a byte list, initial value `0xFFFF`. -/
def crc16modbus (l : List Nat) : Nat :=
  l.foldl crcByteStep 0xFFFF

/-! ### Register map data model

A register range definition (one value of the `sofarProtocol` dictionary)
carries the `registerStart` / `registerEnd` entries (absent key modelled by
`none`, present key by its parsed `int(x, 0)` value) and the per-address
field definitions keyed by the absolute register address (the source
formats the address as the string `"0x%04X"`; the formatting is injective
on 16-bit addresses, so the key is modelled by the address itself).  A
field definition has the output `name`, the `valueType` string, and the
optional scale `factor` (`none` when the key is missing or `float()` on it
fails, in which case the source falls back to `1`). -/

structure FieldDef where
  name : String
  valueType : String
  factor : Option ℚ
deriving DecidableEq, Repr

structure RegRange where
  registerStart : Option Nat
  registerEnd : Option Nat
  fields : List (Nat × FieldDef)
deriving DecidableEq, Repr

/-! ### Request frame construction (`sofarDevice._generateRequest`, lines 125-156) -/

/-- Lines 138-139: bytes 7-10 of the request are built from the string
slices `hex(serial)[8:10] + hex(serial)[6:8] + hex(serial)[4:6] +
hex(serial)[2:4]` via `bytearray.fromhex`.  Slice `[2+i:2+j]` of the
string `hex(serial)` is slice `[i:j]` of its digit list. -/
def serialFieldBytes (serial : Nat) : Option (List Nat) :=
  let ds := hexDigits serial
  fromhexPairs (((ds.drop 6).take 2) ++ ((ds.drop 4).take 2) ++
    ((ds.drop 2).take 2) ++ (ds.take 2))

/-- Lines 144-146: `businessfield = unhexlify("0003" +
hex_zfill(regStart)[2:] + hex_zfill(regEnd - regStart + 1)[2:])`.
`hex_zfill` is `"0x" + hex(v)[2:].zfill(4)`; a negative register count
makes `hex()` produce a minus sign and the letter `x` inside the slice,
so `unhexlify` raises `ValueError`, modelled as `none`. -/
def businessField (regStart : Nat) (count : Int) : Option (List Nat) :=
  if count < 0 then none
  else fromhexPairs ([0, 0, 0, 3] ++ zfill4 (hexDigits regStart) ++
    zfill4 (hexDigits count.toNat))

/-- Lines 148-149: the CRC is rendered with `padhex(hex(crc))` (zero-fill
to 4 digits) and re-parsed as the two character pairs `[4:6]` then `[2:4]`,
producing the CRC low byte followed by the CRC high byte. -/
def crcSwappedBytes (crc : Nat) : Option (List Nat) :=
  let ds := zfill4 (hexDigits crc)
  fromhexPairs (((ds.drop 2).take 2) ++ (ds.take 2))

/-- Lines 151-154: `checksum = 0; for i in range(1, 34): checksum +=
requestBytes[i] & 255`, then `int(checksum & 255)` is stored, applied to
the list of bytes 1..33. -/
def checksumByte (l : List Nat) : Nat :=
  (l.foldl (fun a x => a + (x &&& 255)) 0) &&& 255

/-- The byte-array assembly of `_generateRequest` (lines 133-156) given
the three computed byte pieces: the serial field `sb` (line 138), the
Modbus business field `bf` (line 144) and the byte-swapped CRC `cb`
(line 148).  Each slice assignment is applied to the array in source
order; when an undersized piece has shrunk the array, the checksum loop
(which reads indices 1..33) raises `IndexError` on an array shorter than
34 and the store `requestBytes[34] = …` raises on an array shorter than
35, modelled by `.error ()`. -/
def assembleFrame (sb bf cb : List Nat) : Except Unit (Option (List Nat)) :=
  -- line 133: requestBytes = bytearray(36)
  let r0 := List.replicate 36 0
  -- line 134: requestBytes[0:1] = unhexlify("A5")
  let r1 := sliceAssign r0 0 1 [0xA5]
  -- line 135: requestBytes[1:3] = unhexlify("1700")
  let r2 := sliceAssign r1 1 3 [0x17, 0x00]
  -- line 136: requestBytes[3:5] = unhexlify("1045")
  let r3 := sliceAssign r2 3 5 [0x10, 0x45]
  -- line 137: requestBytes[5:7] = unhexlify("0000")
  let r4 := sliceAssign r3 5 7 [0x00, 0x00]
  -- lines 138-139: requestBytes[7:11] = serial bytes
  let r5 := sliceAssign r4 7 11 sb
  -- lines 140-141: requestBytes[11:26] = unhexlify("0200…00") (15 bytes)
  let r6 := sliceAssign r5 11 26 (0x02 :: List.replicate 14 0)
  -- line 147: requestBytes[26:32] = businessfield
  let r7 := sliceAssign r6 26 32 bf
  -- lines 148-149: requestBytes[32:34] = swapped CRC of businessfield
  let r8 := sliceAssign r7 32 34 cb
  -- lines 151-154: checksum over bytes 1..33, then requestBytes[34]
  if 34 ≤ r8.length then
    if 34 < r8.length then
      let r9 := r8.set 34 (checksumByte ((r8.drop 1).take 33))
      -- line 155: requestBytes[35:36] = unhexlify("15")
      .ok (some (sliceAssign r9 35 36 [0x15]))
    else .error ()
  else .error ()

/-- `sofarDevice._generateRequest` (lines 125-156).  The result is
`.ok none` when the function returns `False` (missing `registerStart` or
`registerEnd`, lines 127-129), `.error ()` when the Python code raises an
uncaught exception (`ValueError` from `fromhex`/`unhexlify`, or
`IndexError` inside the checksum computation), and `.ok (some f)` when
the built frame is returned. -/
def generateRequest (rr : RegRange) (serial : Nat) : Except Unit (Option (List Nat)) :=
  match rr.registerStart, rr.registerEnd with
  | some regStart, some regEnd =>
    match serialFieldBytes serial with
    | none => .error ()
    | some sb =>
      match businessField regStart ((regEnd : Int) - (regStart : Int) + 1) with
      | none => .error ()
      | some bf =>
        match crcSwappedBytes (crc16modbus bf) with
        | none => .error ()
        | some cb => assembleFrame sb bf cb
  | _, _ => .ok none

/-! ### Response decoding (`sofarDevice._readRegisterRange`, lines 280-318) -/

/-- Python `int.from_bytes(bs, "big", signed=sgn)`: big-endian unsigned
value, twos-complement when `sgn` is truthy; the empty byte string gives
`0` in both cases. -/
def beUnsigned (bs : List Nat) : Nat :=
  bs.foldl (fun a b => a * 256 + b) 0

def fromBytesBig (bs : List Nat) (sgn : Bool) : Int :=
  let u := beUnsigned bs
  if sgn = true ∧ 2 * u ≥ 256 ^ bs.length then (u : Int) - (256 : Int) ^ bs.length
  else (u : Int)

/-- Lines 296-316: dispatch on `regDef["valueType"]`.  The source calls
`int.from_bytes(..., signed="False")` for the unsigned types and
`signed="True"` for the signed ones; both arguments are nonempty strings,
hence truthy, so every branch decodes twos-complement.  A 16-bit type
reads `data[idxStart:idxStart+2]`, a 32-bit type reads
`data[idxStart:idxStart+4]` (clamped by Python slicing when the data is
short).  Any other type string hits the final `continue`, modelled as
`none`. -/
def decodeField (vt : String) (data : List Nat) (idxStart : Nat) : Option Int :=
  if vt = "u16" then some (fromBytesBig (slice data idxStart (idxStart + 2)) (pyTruthy "False"))
  else if vt = "u32" then some (fromBytesBig (slice data idxStart (idxStart + 4)) (pyTruthy "False"))
  else if vt = "i16" then some (fromBytesBig (slice data idxStart (idxStart + 2)) (pyTruthy "True"))
  else if vt = "i32" then some (fromBytesBig (slice data idxStart (idxStart + 4)) (pyTruthy "True"))
  else none

/-- Python dictionary store `d[k] = v` on an association list: replace the
existing binding of `k` in place, or append a new one at the end. -/
def upsert {α : Type} : List (String × α) → String → α → List (String × α)
  | [], k, v => [(k, v)]
  | (k', v') :: rest, k, v =>
    if k' = k then (k, v) :: rest else (k', v') :: upsert rest k v

/-- Values decoded for one register range: the `output` dictionary built
by lines 280-317, field output name to scaled value. -/
abbrev Vals := List (String × ℚ)

/-- Loop body for one register offset `idx` (lines 287-317): look up the
field definition at absolute address `idx + regStart` (line 287-290,
`continue` when absent), read the scale factor with fallback `1`
(lines 292-295), decode by value type, and store under the output name
(line 317). -/
def decodeStep (fields : List (Nat × FieldDef)) (regStart : Nat) (data : List Nat)
    (idx : Nat) (out : Vals) : Vals :=
  match fields.lookup (idx + regStart) with
  | none => out
  | some fd =>
    let factor := fd.factor.getD 1
    match decodeField fd.valueType data (28 + idx * 2) with
    | none => out
    | some v => upsert out fd.name ((v : ℚ) * factor)

/-- Lines 281-317: `for idx in range(0, regEnd - regStart + 1)` with the
early `break` of lines 282-286 when `idxStart + 2 > len(data)`.  The first
argument of the recursion is the current `idx`, the second the number of
offsets still to visit. -/
def readLoop (fields : List (Nat × FieldDef)) (regStart : Nat) (data : List Nat) :
    Nat → Nat → Vals → Vals
  | _, 0, out => out
  | idx, rem + 1, out =>
    if 28 + idx * 2 + 2 > data.length then out
    else readLoop fields regStart data (idx + 1) rem (decodeStep fields regStart data idx out)

/-- The pure decoding part of `sofarDevice._readRegisterRange`
(lines 280-318): `range(0, regEnd - regStart + 1)` iterates
`regEnd - regStart + 1` times (none when that integer is not positive). -/
def decodeResponse (fields : List (Nat × FieldDef)) (regStart regEnd : Nat)
    (data : List Nat) : Vals :=
  readLoop fields regStart data 0 (((regEnd : Int) - (regStart : Int) + 1).toNat) []

/-! ### The polling core (`sofarDevice.getRegisterRangeData`, lines 158-234)

The socket I/O of one poll is modelled by an oracle: the outcome of the
n-th `_connect` call, the outcome of the n-th `sendall`, and the net
outcome of the n-th receive loop of `_readRegisterRange` (lines 247-269):
the bytes accumulated before the loop left, and whether the connected flag
survived the loop (`false` models an empty `recv` chunk or a non-timeout
exception, which clear the flag inside the loop). -/

structure IOEnv where
  connects : Nat → Bool
  sends : Nat → Bool
  recvs : Nat → List Nat × Bool

/-- The live session state: the `_connectedToInverterFlag` plus the three
oracle cursors counting the connect, send and receive operations done so
far. -/
structure DevState where
  connected : Bool
  cIdx : Nat
  sIdx : Nat
  rIdx : Nat
deriving DecidableEq, Repr

/-- `sofarDevice._connect` (lines 103-123): one connection attempt whose
outcome the oracle dictates; the flag is set accordingly. -/
def connectStep (env : IOEnv) (st : DevState) : DevState :=
  { connected := env.connects st.cIdx, cIdx := st.cIdx + 1, sIdx := st.sIdx, rIdx := st.rIdx }

/-- `sofarDevice._readRegisterRange` (lines 236-318).  Returns `none` where
the source returns `False`: flag already down (line 238), missing
`registerStart`/`registerEnd` (lines 241-243, flag untouched, no receive
performed), or a receive that ends with no data or a cleared flag
(lines 270-276, flag cleared).  Otherwise the received bytes are decoded
(possibly to an empty dictionary). -/
def readRegisterRange (env : IOEnv) (st : DevState) (rr : RegRange) :
    Option Vals × DevState :=
  if st.connected = false then (none, st)
  else
    match rr.registerStart, rr.registerEnd with
    | some rs, some re =>
      let dr := env.recvs st.rIdx
      let st1 : DevState := { st with rIdx := st.rIdx + 1 }
      if dr.2 = true ∧ dr.1 ≠ [] then
        (some (decodeResponse rr.fields rs re dr.1), st1)
      else (none, { st1 with connected := false })
    | _, _ => (none, st)

/-- The dictionary assembled by one polling attempt: range name to decoded
values (`output`, line 184). -/
abbrev Output := List (String × Vals)

/-- Result of the per-range loop of one attempt (lines 185-206):
either an uncaught Python exception, or the loop finished (normally or by
`break`) with the updated state and `output` dictionary. -/
inductive FetchOut
  | raised
  | done (st : DevState) (out : Output)
deriving DecidableEq, Repr

/-- Lines 185-206, `for regRangeName in requestedRegRangeDefs`.
`self.sofarProtocol[regRangeName]` raises `KeyError` when the name is not
a key (line 186; nothing catches it).  A `False` from `_generateRequest`
is passed to `sendall`, whose `TypeError` is caught by lines 191-195:
close, clear flag, `break`.  An uncaught exception inside
`_generateRequest` itself (line 187) escapes.  A send failure or a falsy
`regRangeVals` (lines 189-206) closes the socket, clears the flag and
`break`s; otherwise `output[regRangeName] = regRangeVals`. -/
def fetchLoop (proto : List (String × RegRange)) (env : IOEnv) (serial : Nat) :
    List String → DevState → Output → FetchOut
  | [], st, out => .done st out
  | name :: rest, st, out =>
    match proto.lookup name with
    | none => .raised
    | some rr =>
      match generateRequest rr serial with
      | .error _ => .raised
      | .ok none => .done { st with connected := false } out
      | .ok (some _) =>
        if env.sends st.sIdx = false then
          .done { st with sIdx := st.sIdx + 1, connected := false } out
        else
          match readRegisterRange env { st with sIdx := st.sIdx + 1 } rr with
          | (some vals, st2) =>
            if vals ≠ [] then fetchLoop proto env serial rest st2 (upsert out name vals)
            else .done { st2 with connected := false } out
          | (none, st2) => .done { st2 with connected := false } out

/-- Outcome of one iteration of the retry loop. -/
inductive AttemptOut
  | raised
  | retry
  | success (out : Output)
deriving DecidableEq, Repr

/-- The loop of lines 213-219: it clears the connected flag when some
requested name is missing from `output`, and nothing else, because its
`continue` only continues this very loop. -/
def sanityFlagged (names : List String) (st : DevState) (out : Output) : DevState :=
  if names.any (fun n => (out.lookup n).isNone) then { st with connected := false }
  else st

/-- Lines 212-232: the sanity check of the received data.  The loop of
lines 213-219 clears the flag when a requested name is missing from
`output`, but its `continue` only continues that inner loop, so control
always falls through to line 220, where `output["PVOutput"]`,
`["Power_PV1"]` and `["Power_PV2"]` raise `KeyError` if absent.  Line 221
short-circuits: with a falsy `mySystemSize` the energy lookup is skipped
and the data returned; otherwise implausible values close the socket,
clear the flag and retry (lines 222-229). -/
def sanityCheck (sysSize : ℚ) (names : List String) (st : DevState) (out : Output) :
    DevState × AttemptOut :=
  match out.lookup "PVOutput" with
  | none => (sanityFlagged names st out, .raised)
  | some pvo =>
    match pvo.lookup "Power_PV1" with
    | none => (sanityFlagged names st out, .raised)
    | some p1 =>
      match pvo.lookup "Power_PV2" with
      | none => (sanityFlagged names st out, .raised)
      | some p2 =>
        if sysSize ≠ 0 then
          match out.lookup "EnergyTodayTotals" with
          | none => (sanityFlagged names st out, .raised)
          | some ett =>
            match ett.lookup "PV_Generation_Today" with
            | none => (sanityFlagged names st out, .raised)
            | some e =>
              if e > 10 * sysSize ∨ p1 + p2 > 1200 * sysSize then
                ({ sanityFlagged names st out with connected := false }, .retry)
              else (sanityFlagged names st out, .success out)
        else (sanityFlagged names st out, .success out)

/-- One iteration of the retry loop (lines 174-232): ensure a connection
(lines 176-181, retry on failure), fetch every requested range
(lines 184-206), retry if the flag went down (lines 208-211), otherwise
run the sanity check. -/
def attemptAfterConnect (proto : List (String × RegRange)) (env : IOEnv)
    (serial : Nat) (sysSize : ℚ) (names : List String) (stc : DevState) :
    DevState × AttemptOut :=
  if stc.connected = false then (stc, .retry)
  else
    match fetchLoop proto env serial names stc [] with
    | .raised => (stc, .raised)
    | .done st2 out =>
      if st2.connected = false then (st2, .retry)
      else sanityCheck sysSize names st2 out

def attempt (proto : List (String × RegRange)) (env : IOEnv) (serial : Nat)
    (sysSize : ℚ) (names : List String) (st : DevState) : DevState × AttemptOut :=
  attemptAfterConnect proto env serial sysSize names
    (if st.connected then st else connectStep env st)

/-- Python `range(a, b, 1)`. -/
def pyRange (a b : Nat) : List Nat :=
  List.range' a (b - a)

/-- Line 172. -/
def maxRetries : Nat := 10

/-- Lines 173-234: the retry loop, one list element per iteration of
`for retryCounter in range(1, maxRetries, 1)`; falling off the loop
returns `False` (line 234), modelled as `.ok none`. -/
def pollLoop (proto : List (String × RegRange)) (env : IOEnv) (serial : Nat)
    (sysSize : ℚ) (names : List String) :
    List Nat → DevState → Except Unit (Option Output) × DevState
  | [], st => (.ok none, st)
  | _ :: tries, st =>
    match attempt proto env serial sysSize names st with
    | (st1, .retry) => pollLoop proto env serial sysSize names tries st1
    | (st1, .success out) => (.ok (some out), st1)
    | (st1, .raised) => (.error (), st1)

/-- Lines 164-167: the required-ranges loop.  The body appends
`requiredRegRanges[0]` (that is, always the string "EnergyTodayTotals")
whenever the currently checked required name is absent. -/
def addRequired (l : List String) : List String :=
  let l1 := if "EnergyTodayTotals" ∈ l then l else l ++ ["EnergyTodayTotals"]
  if "PVOutput" ∈ l1 then l1 else l1 ++ ["EnergyTodayTotals"]

/-- Lines 168-170: `for reqRange in requestedRegRangeDefs: if reqRange not
in self.sofarProtocol: requestedRegRangeDefs.remove(reqRange)`.  Python
iterates the list by an internal index that advances after every body run,
also when `remove` has shifted the remaining elements one place left; the
loop stops as soon as the index reaches the current length.  The fuel
argument (called with the initial length) strictly bounds the number of
iterations, which never exceeds the initial length because the index grows
by one per iteration and the length never grows. -/
def removeLoop (proto : List (String × RegRange)) : Nat → Nat → List String → List String
  | 0, _, l => l
  | fuel + 1, i, l =>
    if h : i < l.length then
      let x := l.get ⟨i, h⟩
      if (proto.lookup x).isSome then removeLoop proto fuel (i + 1) l
      else removeLoop proto fuel (i + 1) (l.erase x)
    else l

/-- Lines 161-170: normalisation of the requested range names.  `list(set(
...))` keeps exactly one copy of every distinct name; the iteration order
of a Python set is unspecified and is modelled here by `List.dedup`. -/
def normalizeRequested (proto : List (String × RegRange)) (requested : List String) :
    List String :=
  let l1 := addRequired requested.dedup
  removeLoop proto l1.length 0 l1

/-- `sofarDevice.getRegisterRangeData` (lines 158-234), with the final
oracle cursors exposed so that theorems can count the I/O operations a
poll performed.  `.error ()` models a Python exception escaping the
method, `.ok none` the `return False` of line 234, and `.ok (some out)`
the `return output` of line 232. -/
def getRegisterRangeData (proto : List (String × RegRange)) (env : IOEnv)
    (serial : Nat) (sysSize : ℚ) (requested : List String) :
    Except Unit (Option Output) × DevState :=
  pollLoop proto env serial sysSize (normalizeRequested proto requested)
    (pyRange 1 maxRetries) ⟨false, 0, 0, 0⟩

/-- Decidable equality for `Except`, needed to evaluate concrete poll
results inside `decide`. -/
instance {e a : Type} [DecidableEq e] [DecidableEq a] : DecidableEq (Except e a)
  | .ok x, .ok y => if h : x = y then isTrue (by rw [h]) else isFalse (by simp [h])
  | .ok _, .error _ => isFalse (by simp)
  | .error _, .ok _ => isFalse (by simp)
  | .error x, .error y => if h : x = y then isTrue (by rw [h]) else isFalse (by simp [h])


/-! ### Concrete fixtures

A small register map in the shape of `sofarProtocol.json` (an
`EnergyTodayTotals` range with the cumulative daily energy and a
`PVOutput` range with the two string powers), together with concrete I/O
oracles, used by the concrete theorems and witnesses below. -/

def rangeETT : RegRange :=
  ⟨some 0x0684, some 0x0684, [(0x0684, ⟨"PV_Generation_Today", "u16", none⟩)]⟩

def rangePVO : RegRange :=
  ⟨some 0x0580, some 0x0581,
    [(0x0580, ⟨"Power_PV1", "u16", none⟩), (0x0581, ⟨"Power_PV2", "u16", none⟩)]⟩

def protoFull : List (String × RegRange) :=
  [("EnergyTodayTotals", rangeETT), ("PVOutput", rangePVO)]

/-- A `PVOutput` range definition whose `registerEnd` key is missing. -/
def rangePVONoEnd : RegRange := ⟨some 0x0580, none, []⟩

def protoPVONoEnd : List (String × RegRange) :=
  [("EnergyTodayTotals", rangeETT), ("PVOutput", rangePVONoEnd)]

/-- Response payload for `rangeETT`: 28 header bytes, then the register
value 5. -/
def dataETT : List Nat := List.replicate 28 0 ++ [0, 5]

/-- Response payload for `rangePVO`: 28 header bytes, then the register
values 1 and 2. -/
def dataPVO : List Nat := List.replicate 28 0 ++ [0, 1, 0, 2]

/-- Oracle on which every connection attempt fails. -/
def envConnectFail : IOEnv := ⟨fun _ => false, fun _ => true, fun _ => ([], true)⟩

/-- Oracle with perfect I/O that answers the first receive of an attempt
with the `PVOutput` payload and the second with the `EnergyTodayTotals`
payload (the order in which a poll requesting `["PVOutput",
"EnergyTodayTotals"]` reads them). -/
def envGoodBoth : IOEnv :=
  ⟨fun _ => true, fun _ => true, fun n => (if n % 2 = 0 then dataPVO else dataETT, true)⟩

/-- Oracle with perfect I/O that always answers with the
`EnergyTodayTotals` payload. -/
def envOnlyETT : IOEnv := ⟨fun _ => true, fun _ => true, fun _ => (dataETT, true)⟩

/-- The decoding loop as the spec words it (section 4.1,
`decodeResponse`): visit the register offsets `0, …, regEnd - regStart`
in order, but only the initial stretch of offsets whose 16-bit read
window still fits inside the payload (decoding stops at the first offset
whose data position would exceed the payload length); every visited
offset is processed with the same per-offset step as the source.  This
definition exists to be compared against the translated source. -/
def specDecodeResponse (fields : List (Nat × FieldDef)) (regStart regEnd : Nat)
    (data : List Nat) : Vals :=
  ((List.range (((regEnd : Int) - (regStart : Int) + 1).toNat)).takeWhile
      (fun idx => decide (28 + idx * 2 + 2 ≤ data.length))).foldl
    (fun out idx => decodeStep fields regStart data idx out) []

/-- The plausibility gate of lines 220-221 accepted `out`: the power
lookups succeeded, and — when a nonzero system capacity is configured —
the energy lookup succeeded and neither the energy-today bound nor the
total-power bound was exceeded. -/
def plausibilityOk (sysSize : ℚ) (out : Output) : Prop :=
  ∃ pvo p1 p2, out.lookup "PVOutput" = some pvo ∧
    pvo.lookup "Power_PV1" = some p1 ∧ pvo.lookup "Power_PV2" = some p2 ∧
    (sysSize ≠ 0 → ∃ ett e, out.lookup "EnergyTodayTotals" = some ett ∧
      ett.lookup "PV_Generation_Today" = some e ∧
      ¬(e > 10 * sysSize ∨ p1 + p2 > 1200 * sysSize))

/-- The output of the successful concrete poll used as witness for
claim C6: the values are the stored decode terms (signed big-endian read
times the default factor 1). -/
def outWitness : Output :=
  [("PVOutput", [("Power_PV1", ((1 : Int) : ℚ) * 1), ("Power_PV2", ((2 : Int) : ℚ) * 1)]),
   ("EnergyTodayTotals", [("PV_Generation_Today", ((5 : Int) : ℚ) * 1)])]

/-! ### General lemmas -/

/-- `hexDigitsAux` computes the reversed base-16 digit list of Mathlib. -/
theorem hexDigitsAux_eq_digits :
    ∀ fuel n : Nat, n ≤ fuel → hexDigitsAux fuel n = (Nat.digits 16 n).reverse := by
  intro fuel
  induction fuel with
  | zero =>
    intro n hn
    interval_cases n
    simp [hexDigitsAux]
  | succ fuel ih =>
    intro n hn
    by_cases h0 : n = 0
    · simp [hexDigitsAux, h0]
    · have hpos : 0 < n := Nat.pos_of_ne_zero h0
      have hdiv : n / 16 ≤ fuel := by
        have : n / 16 < n := Nat.div_lt_self hpos (by norm_num)
        omega
      rw [hexDigitsAux, if_neg h0, ih _ hdiv,
        Nat.digits_def' (by norm_num : (1 : Nat) < 16) hpos]
      simp

/-- `hexDigits` in terms of the Mathlib digit list. -/
theorem hexDigits_eq (n : Nat) :
    hexDigits n = if n = 0 then [0] else (Nat.digits 16 n).reverse := by
  rw [hexDigits]
  by_cases h : n = 0
  · simp [h]
  · rw [if_neg h, if_neg h, hexDigitsAux_eq_digits n n le_rfl]

/-- `pyTruthy` on the two string constants the source uses. -/
theorem pyTruthy_False : pyTruthy "False" = true := by decide

theorem pyTruthy_True : pyTruthy "True" = true := by decide

/-! ### Claim C2 -/

/-- Claim C2 (counter-evidence for the code bug): the source decodes the
`u16` payload bytes `FF FF` to the signed value `-1` (times the default
factor 1), not to the unsigned value `65535` that the claim prescribes,
because `int.from_bytes` is called with `signed="False"`, a nonempty and
hence truthy string.  An unsigned big-endian read of the same bytes gives
`65535`. -/
theorem c2_u16_decoded_signed :
    decodeResponse [(0, ⟨"X", "u16", none⟩)] 0 0 (List.replicate 28 0 ++ [255, 255])
        = [("X", (-1 : ℚ))] ∧
      fromBytesBig [255, 255] false = 65535 ∧ ((-1 : ℚ) ≠ 65535) := by
  refine ⟨?_, by decide, by norm_num⟩
  have h1 : decodeResponse [(0, ⟨"X", "u16", none⟩)] 0 0
      (List.replicate 28 0 ++ [255, 255])
      = [("X", ((fromBytesBig [255, 255] true : ℚ) * 1))] := rfl
  rw [h1]
  norm_num [fromBytesBig, beUnsigned]

/-! ### Claim C4 -/

/-- Claim C4 (counter-evidence for the code bug): with every connection
attempt failing, the poll performs exactly 9 connection attempts (the
final `cIdx`), not the 10 that the claim and the comment of line 171
announce, because `range(1, maxRetries, 1)` with `maxRetries = 10`
iterates only over 1..9; it then returns the no-data outcome. -/
theorem c4_nine_attempts :
    getRegisterRangeData protoFull envConnectFail 0x12345678 1
        ["EnergyTodayTotals", "PVOutput"] = (.ok none, ⟨false, 9, 0, 0⟩) := by
  decide

/-! ### Claim C7 -/

/-- Claim C7 (counter-evidence for the code bug): polling with the
requested range list `["EnergyTodayTotals"]` against a well-formed
register map and perfectly behaving I/O makes the core raise an uncaught
`KeyError`: line 167 appends `"EnergyTodayTotals"` instead of the missing
`"PVOutput"`, so line 220 evaluates `output["PVOutput"]` on a dictionary
without that key.  The exception (modelled by `.error ()`) escapes
`getRegisterRangeData` instead of resolving to a retry or the no-data
result. -/
theorem c7_keyerror_escapes :
    (getRegisterRangeData protoFull envOnlyETT 0x12345678 1
      ["EnergyTodayTotals"]).1 = .error () := by
  decide

/-! ### Claim C8 -/

/-- Claim C8 (counter-evidence for the code bug): requesting
`["EnergyTodayTotals"]` makes the required-ranges loop append a second
copy of `"EnergyTodayTotals"` (the body of line 167 always appends
`requiredRegRanges[0]`), so `"PVOutput"` is never added and the list is
not unique; and the `remove`-while-iterating loop of lines 168-170 fails
to drop the unknown name `"B"` from `["A", "B"]` when the register map
contains neither. -/
theorem c8_normalize_bug :
    addRequired (List.dedup ["EnergyTodayTotals"])
        = ["EnergyTodayTotals", "EnergyTodayTotals"] ∧
      "PVOutput" ∉ normalizeRequested protoFull ["EnergyTodayTotals"] ∧
      removeLoop [] 2 0 ["A", "B"] = ["B"] := by
  refine ⟨by decide, by decide, by decide⟩

/-! ### Claim C9 -/

/-- Claim C9 counterexample: with a register map whose `PVOutput` range
lacks `registerEnd` and an otherwise perfect environment, a poll
requesting `["PVOutput", "EnergyTodayTotals"]` returns no data after the
9 iterations of the retry loop, and the final oracle cursors `sIdx = 0`
and `rIdx = 0` show that no request was ever sent and no range was ever
received or decoded: the malformed range is not merely skipped — it
aborts the whole attempt, so the well-formed `EnergyTodayTotals` range is
never fetched. -/
theorem c9_counterexample :
    getRegisterRangeData protoPVONoEnd envGoodBoth 0x12345678 1
        ["PVOutput", "EnergyTodayTotals"] = (.ok none, ⟨false, 9, 0, 0⟩) := by
  decide

/-- Claim C9 (amended): a range definition missing `registerStart` or
`registerEnd` makes `_generateRequest` fail with the format error (return
`False`); the `TypeError` of passing `False` to `sendall` is caught and
aborts the current polling attempt: the per-range loop stops with the
connected flag cleared, the ranges after the malformed one are not
fetched in that attempt, no I/O is consumed for the malformed range, and
the output collected so far is left as it was (the attempt is then
retried by the outer loop). -/
theorem c9_amended (proto : List (String × RegRange)) (env : IOEnv) (serial : Nat)
    (name : String) (rest : List String) (st : DevState) (out : Output)
    (rr : RegRange) (hlook : proto.lookup name = some rr)
    (hmiss : rr.registerStart = none ∨ rr.registerEnd = none) :
    fetchLoop proto env serial (name :: rest) st out
      = .done { st with connected := false } out := by
  have hgen : generateRequest rr serial = .ok none := by
    rcases hmiss with h | h
    · rw [generateRequest, h]
    · rw [generateRequest, h]
      cases rr.registerStart <;> rfl
  simp only [fetchLoop, hlook, hgen]

/-- Witness for the amended claim C9 at a concrete input: the register
map `protoPVONoEnd`, whose `PVOutput` entry lacks `registerEnd`. -/
theorem c9_amended_witness :
    fetchLoop protoPVONoEnd envGoodBoth 0x12345678
        ["PVOutput", "EnergyTodayTotals"] ⟨true, 1, 0, 0⟩ []
      = .done ⟨false, 1, 0, 0⟩ [] :=
  c9_amended protoPVONoEnd envGoodBoth 0x12345678 "PVOutput" ["EnergyTodayTotals"]
    ⟨true, 1, 0, 0⟩ [] rangePVONoEnd rfl (Or.inr rfl)

/-! ### Claim C10 -/

/-- Claim C10: before reading a field the loop only checks that two bytes
are available (`idxEnd16 > len(data)` is the sole break condition), so a
32-bit field whose data position has at least two but fewer than four
bytes left is still decoded, from the clamped short slice
`data[idxStart : idxStart+4]`, and stored in the result instead of being
skipped.  Stated for a range holding a single `u32` field at its start
register, so the data position is 28. -/
theorem c10_u32_short_slice (s : Nat) (nm : String) (data : List Nat)
    (h1 : 30 ≤ data.length) (h2 : data.length < 32) :
    (decodeResponse [(s, ⟨nm, "u32", none⟩)] s s data).lookup nm
        = some ((fromBytesBig (slice data 28 32) (pyTruthy "False") : ℚ) * 1) ∧
      (slice data 28 32).length < 4 := by
  constructor
  · have hcnt : (((s : Int) - (s : Int) + 1)).toNat = 1 := by simp
    rw [decodeResponse, hcnt, readLoop]
    rw [if_neg (by omega)]
    rw [readLoop]
    simp [decodeStep, decodeField, upsert, List.lookup_cons_self]
  · simp only [slice, List.length_take, List.length_drop]
    omega

/-- Witness for claim C10 at a concrete input: a 31-byte payload, so the
single `u32` field at data position 28 has only 3 bytes left. -/
theorem c10_witness :
    (decodeResponse [(5, ⟨"Y", "u32", none⟩)] 5 5 (List.replicate 31 0)).lookup "Y"
        = some ((fromBytesBig (slice (List.replicate 31 0) 28 32) (pyTruthy "False") : ℚ) * 1) ∧
      (slice (List.replicate 31 0) 28 32).length < 4 :=
  c10_u32_short_slice 5 "Y" (List.replicate 31 0) (by decide) (by decide)

/-! ### Claim C5 -/

/-- Claim C5: when a positive system capacity is configured and the
decoded data has an implausible energy-today value (more than 10 times
the capacity) or an implausible total power (the sum of the two PV-string
powers exceeding 1200 times the capacity), the sanity check of the
polling attempt rejects the data: the outcome is a retry with the
connected flag cleared, never a successful return of that data. -/
theorem c5_plausibility_reject (sysSize : ℚ) (names : List String) (st : DevState)
    (out : Output) (pvo ett : Vals) (p1 p2 e : ℚ)
    (hC : 0 < sysSize)
    (hpvo : out.lookup "PVOutput" = some pvo)
    (hp1 : pvo.lookup "Power_PV1" = some p1)
    (hp2 : pvo.lookup "Power_PV2" = some p2)
    (hett : out.lookup "EnergyTodayTotals" = some ett)
    (he : ett.lookup "PV_Generation_Today" = some e)
    (hbad : e > 10 * sysSize ∨ p1 + p2 > 1200 * sysSize) :
    (sanityCheck sysSize names st out).2 = .retry ∧
      (sanityCheck sysSize names st out).1.connected = false := by
  simp only [sanityCheck, hpvo, hp1, hp2, hett, he]
  rw [if_pos (ne_of_gt hC), if_pos hbad]
  exact ⟨rfl, rfl⟩

/-- Witness for claim C5 at a concrete input: capacity 1, energy today 11
(exceeding 10 times the capacity). -/
theorem c5_witness :
    (sanityCheck 1 ["PVOutput", "EnergyTodayTotals"] ⟨true, 1, 2, 2⟩
        [("PVOutput", [("Power_PV1", 1), ("Power_PV2", 2)]),
         ("EnergyTodayTotals", [("PV_Generation_Today", 11)])]).2 = .retry ∧
      (sanityCheck 1 ["PVOutput", "EnergyTodayTotals"] ⟨true, 1, 2, 2⟩
        [("PVOutput", [("Power_PV1", 1), ("Power_PV2", 2)]),
         ("EnergyTodayTotals", [("PV_Generation_Today", 11)])]).1.connected = false :=
  c5_plausibility_reject 1 ["PVOutput", "EnergyTodayTotals"] ⟨true, 1, 2, 2⟩
    [("PVOutput", [("Power_PV1", 1), ("Power_PV2", 2)]),
     ("EnergyTodayTotals", [("PV_Generation_Today", 11)])]
    [("Power_PV1", 1), ("Power_PV2", 2)] [("PV_Generation_Today", 11)]
    1 2 11 (by norm_num) rfl rfl rfl rfl rfl (Or.inl (by norm_num))

/-! ### Claim C3 -/


/-- The break of lines 285-286 makes `readLoop` process exactly the
offsets whose 16-bit window fits the payload, in order. -/
theorem readLoop_eq_takeWhile (fields : List (Nat × FieldDef)) (regStart : Nat)
    (data : List Nat) :
    ∀ (rem idx : Nat) (out : Vals),
      readLoop fields regStart data idx rem out =
        ((List.range' idx rem).takeWhile
            (fun i => decide (28 + i * 2 + 2 ≤ data.length))).foldl
          (fun o i => decodeStep fields regStart data i o) out := by
  intro rem
  induction rem with
  | zero => intro idx out; rfl
  | succ rem ih =>
    intro idx out
    rw [List.range'_succ, readLoop]
    by_cases h : 28 + idx * 2 + 2 > data.length
    · rw [if_pos h, List.takeWhile_cons_of_neg (by simpa using h)]
      rfl
    · rw [if_neg h, List.takeWhile_cons_of_pos (by simpa using Nat.le_of_not_lt h)]
      rw [List.foldl_cons, ih]

/-- Claim C3: the response decoding of `_readRegisterRange`
(lines 280-318) is a total function of the payload bytes — in this
embedding it is a Lean function, and the match with the source shows the
loop body raises nothing for well-formed field definitions — and for
every byte sequence, including ones shorter than the expected payload, it
produces exactly the (possibly empty) mapping obtained by decoding the
register offsets in order and stopping at the first one whose 16-bit data
window would pass the end of the payload. -/
theorem c3_decode_total_stops (fields : List (Nat × FieldDef)) (regStart regEnd : Nat)
    (data : List Nat) :
    decodeResponse fields regStart regEnd data
      = specDecodeResponse fields regStart regEnd data := by
  rw [decodeResponse, specDecodeResponse, List.range_eq_range']
  exact readLoop_eq_takeWhile fields regStart data _ 0 []

/-! ### Claim C1: digit-level value lemmas -/

/-- Value of the zero-filled digit rendering of a 16-bit number. -/
theorem zfill4_hexDigits (n : Nat) (h : n < 65536) :
    zfill4 (hexDigits n) = [n / 4096 % 16, n / 256 % 16, n / 16 % 16, n % 16] := by
  have h16 : (1 : Nat) < 16 := by norm_num
  rw [hexDigits_eq]
  by_cases h0 : n = 0
  · subst h0; rfl
  rw [if_neg h0]
  rcases Nat.lt_or_ge n 16 with h1 | h1
  · rw [Nat.digits_def' h16 (Nat.pos_of_ne_zero h0)]
    rw [Nat.div_eq_of_lt h1, Nat.digits_zero]
    simp [zfill4]
    omega
  rcases Nat.lt_or_ge n 256 with h2 | h2
  · rw [Nat.digits_def' h16 (by omega : 0 < n)]
    rw [Nat.digits_def' h16 (by omega : 0 < n / 16)]
    rw [(by omega : n / 16 / 16 = 0), Nat.digits_zero]
    simp [zfill4]
    omega
  rcases Nat.lt_or_ge n 4096 with h3 | h3
  · rw [Nat.digits_def' h16 (by omega : 0 < n)]
    rw [Nat.digits_def' h16 (by omega : 0 < n / 16)]
    rw [Nat.digits_def' h16 (by omega : 0 < n / 16 / 16)]
    rw [(by omega : n / 16 / 16 / 16 = 0), Nat.digits_zero]
    simp [zfill4]
    omega
  · rw [Nat.digits_def' h16 (by omega : 0 < n)]
    rw [Nat.digits_def' h16 (by omega : 0 < n / 16)]
    rw [Nat.digits_def' h16 (by omega : 0 < n / 16 / 16)]
    rw [Nat.digits_def' h16 (by omega : 0 < n / 16 / 16 / 16)]
    rw [(by omega : n / 16 / 16 / 16 / 16 = 0), Nat.digits_zero]
    simp [zfill4]
    omega

/-- The hex digit list of a serial number with exactly 8 hexadecimal
digits. -/
theorem hexDigits_serial8 (s : Nat) (h1 : 268435456 ≤ s) (h2 : s < 4294967296) :
    hexDigits s = [s / 268435456, s / 16777216 % 16, s / 1048576 % 16,
      s / 65536 % 16, s / 4096 % 16, s / 256 % 16, s / 16 % 16, s % 16] := by
  have h16 : (1 : Nat) < 16 := by norm_num
  rw [hexDigits_eq, if_neg (by omega)]
  rw [Nat.digits_def' h16 (by omega : 0 < s)]
  rw [Nat.digits_def' h16 (by omega : 0 < s / 16)]
  rw [Nat.digits_def' h16 (by omega : 0 < s / 16 / 16)]
  rw [Nat.digits_def' h16 (by omega : 0 < s / 16 / 16 / 16)]
  rw [Nat.digits_def' h16 (by omega : 0 < s / 16 / 16 / 16 / 16)]
  rw [Nat.digits_def' h16 (by omega : 0 < s / 16 / 16 / 16 / 16 / 16)]
  rw [Nat.digits_def' h16 (by omega : 0 < s / 16 / 16 / 16 / 16 / 16 / 16)]
  rw [Nat.digits_def' h16 (by omega : 0 < s / 16 / 16 / 16 / 16 / 16 / 16 / 16)]
  rw [(by omega : s / 16 / 16 / 16 / 16 / 16 / 16 / 16 / 16 = 0), Nat.digits_zero]
  simp
  omega

/-- Bytes 7-10 of the frame for a serial with exactly 8 hex digits: the
little-endian bytes of the serial. -/
theorem serialFieldBytes_eq (s : Nat) (h1 : 268435456 ≤ s) (h2 : s < 4294967296) :
    serialFieldBytes s
      = some [s % 256, s / 256 % 256, s / 65536 % 256, s / 16777216] := by
  rw [serialFieldBytes, hexDigits_serial8 s h1 h2]
  show fromhexPairs [s / 16 % 16, s % 16, s / 4096 % 16, s / 256 % 16,
    s / 1048576 % 16, s / 65536 % 16, s / 268435456, s / 16777216 % 16] = _
  simp [fromhexPairs]
  omega

/-- The Modbus business field for 16-bit start/end registers. -/
theorem businessField_eq (a b : Nat) (hab : a ≤ b) (hb : b < 65536)
    (hcnt : b - a + 1 ≤ 65535) :
    businessField a ((b : Int) - (a : Int) + 1)
      = some [0, 3, a / 256, a % 256, (b - a + 1) / 256, (b - a + 1) % 256] := by
  rw [businessField, if_neg (by omega)]
  rw [(by omega : ((b : Int) - (a : Int) + 1).toNat = b - a + 1)]
  rw [zfill4_hexDigits a (by omega), zfill4_hexDigits (b - a + 1) (by omega)]
  show fromhexPairs [0, 0, 0, 3, a / 4096 % 16, a / 256 % 16, a / 16 % 16, a % 16,
    (b - a + 1) / 4096 % 16, (b - a + 1) / 256 % 16,
    (b - a + 1) / 16 % 16, (b - a + 1) % 16] = _
  simp [fromhexPairs]
  omega

/-- The CRC store of lines 148-149: low byte then high byte. -/
theorem crcSwappedBytes_eq (c : Nat) (h : c < 65536) :
    crcSwappedBytes c = some [c % 256, c / 256] := by
  rw [crcSwappedBytes, zfill4_hexDigits c h]
  show fromhexPairs [c / 16 % 16, c % 16, c / 4096 % 16, c / 256 % 16] = _
  simp [fromhexPairs]
  omega

/-- One CRC round keeps the state below `2^16`. -/
theorem crcRound_lt (c : Nat) (h : c < 65536) : crcRound c < 65536 := by
  rw [crcRound]
  split
  · have hx : c / 2 < 2 ^ 16 := by omega
    have hy : (0xA001 : Nat) < 2 ^ 16 := by norm_num
    have := Nat.xor_lt_two_pow hx hy
    omega
  · omega

theorem crcRound_iterate_lt (k : Nat) :
    ∀ c : Nat, c < 65536 → crcRound^[k] c < 65536 := by
  induction k with
  | zero => intro c h; simpa using h
  | succ k ih =>
    intro c h
    rw [Function.iterate_succ_apply]
    exact ih _ (crcRound_lt c h)

theorem crcByteStep_lt (c b : Nat) (hc : c < 65536) (hb : b < 256) :
    crcByteStep c b < 65536 := by
  rw [crcByteStep]
  refine crcRound_iterate_lt 8 _ ?_
  have hx : c < 2 ^ 16 := by omega
  have hy : b < 2 ^ 16 := by omega
  have := Nat.xor_lt_two_pow hx hy
  omega

/-- The CRC of a byte list is a 16-bit value. -/
theorem crc16modbus_lt (l : List Nat) (hl : ∀ x ∈ l, x < 256) :
    crc16modbus l < 65536 := by
  rw [crc16modbus]
  have : ∀ (l : List Nat) (acc : Nat), (∀ x ∈ l, x < 256) → acc < 65536 →
      l.foldl crcByteStep acc < 65536 := by
    intro l
    induction l with
    | nil => intro acc _ h; simpa using h
    | cons x xs ih =>
      intro acc hmem hacc
      rw [List.foldl_cons]
      exact ih _ (fun y hy => hmem y (List.mem_cons_of_mem x hy))
        (crcByteStep_lt acc x hacc (hmem x (List.mem_cons_self x xs)))
  exact this l 0xFFFF hl (by norm_num)

/-- Assembling a frame from a 4-byte serial field, a 6-byte business
field and a 2-byte CRC field produces exactly the announced 36-byte
layout. -/
theorem assembleFrame_explicit (x0 x1 x2 x3 y0 y1 y2 y3 y4 y5 z0 z1 : Nat) :
    assembleFrame [x0, x1, x2, x3] [y0, y1, y2, y3, y4, y5] [z0, z1] =
      .ok (some [0xA5, 0x17, 0x00, 0x10, 0x45, 0x00, 0x00, x0, x1, x2, x3,
        0x02, 0, 0, 0, 0, 0, 0, 0, 0, 0, 0, 0, 0, 0, 0,
        y0, y1, y2, y3, y4, y5, z0, z1,
        checksumByte [0x17, 0x00, 0x10, 0x45, 0x00, 0x00, x0, x1, x2, x3,
          0x02, 0, 0, 0, 0, 0, 0, 0, 0, 0, 0, 0, 0, 0, 0,
          y0, y1, y2, y3, y4, y5, z0, z1],
        0x15]) := rfl

/-- The checksum byte is the sum of the bytes modulo 256: masking with
`& 255` is reduction modulo 256, both per addend and at the end. -/
theorem checksumByte_eq_sum_mod (l : List Nat) :
    checksumByte l = l.sum % 256 := by
  rw [checksumByte]
  have hmask : ∀ x : Nat, x &&& 255 = x % 256 := by
    intro x
    have := Nat.and_pow_two_sub_one_eq_mod x 8
    norm_num at this
    exact this
  have key : ∀ (l : List Nat) (acc : Nat),
      (l.foldl (fun a x => a + (x &&& 255)) acc) % 256 = (acc + l.sum) % 256 := by
    intro l
    induction l with
    | nil => intro acc; simp
    | cons x xs ih =>
      intro acc
      rw [List.foldl_cons, ih, List.sum_cons, hmask]
      omega
  rw [hmask, key]
  omega

/-- Claim C1 (amended): for every register range whose start and end
addresses are present, 16-bit, and ordered with a register count of at
most `0xFFFF`, and every serial number whose hexadecimal rendering has
exactly 8 digits (`0x10000000 ≤ serial < 0x100000000`), the request frame
is built, is exactly 36 bytes long, its byte 34 is the sum of bytes 1-33
modulo 256, and its bytes 32 and 33 are the CRC-16/MODBUS of its bytes
26-31 in swapped (low byte first) order. -/
theorem c1_amended (rr : RegRange) (serial a b : Nat)
    (hs : rr.registerStart = some a) (he : rr.registerEnd = some b)
    (hab : a ≤ b) (hb : b < 65536) (hcount : b - a + 1 ≤ 65535)
    (h1 : 268435456 ≤ serial) (h2 : serial < 4294967296) :
    ∃ f : List Nat, generateRequest rr serial = .ok (some f) ∧
      f.length = 36 ∧
      f.getD 34 0 = ((f.drop 1).take 33).sum % 256 ∧
      f.getD 32 0 = crc16modbus ((f.drop 26).take 6) % 256 ∧
      f.getD 33 0 = crc16modbus ((f.drop 26).take 6) / 256 := by
  have hsb := serialFieldBytes_eq serial h1 h2
  have hbf := businessField_eq a b hab hb hcount
  set c := crc16modbus [0, 3, a / 256, a % 256, (b - a + 1) / 256, (b - a + 1) % 256]
    with hc
  have hclt : c < 65536 := by
    refine crc16modbus_lt _ ?_
    intro x hx
    simp at hx
    rcases hx with h | h | h | h | h | h <;> omega
  have hcb := crcSwappedBytes_eq c hclt
  simp only [generateRequest, hs, he, hsb, hbf, hcb]
  rw [assembleFrame_explicit]
  refine ⟨_, rfl, by simp, ?_, ?_, ?_⟩
  · simp only [checksumByte_eq_sum_mod]
    rfl
  · rfl
  · rfl

/-- Witness for the amended claim C1 at a concrete input: registers
`0x0684 … 0x0685`, serial `0x12345678`. -/
theorem c1_witness :
    ∃ f : List Nat,
      generateRequest ⟨some 0x0684, some 0x0685, []⟩ 0x12345678 = .ok (some f) ∧
      f.length = 36 ∧
      f.getD 34 0 = ((f.drop 1).take 33).sum % 256 ∧
      f.getD 32 0 = crc16modbus ((f.drop 26).take 6) % 256 ∧
      f.getD 33 0 = crc16modbus ((f.drop 26).take 6) / 256 :=
  c1_amended ⟨some 0x0684, some 0x0685, []⟩ 0x12345678 0x0684 0x0685 rfl rfl
    (by norm_num) (by norm_num) (by norm_num) (by norm_num) (by norm_num)

/-- Claim C1 counterexample: at the valid 32-bit serial number 1 the
source raises `ValueError` (the concatenated hex string slices have odd
length, here the single character "1", which `bytearray.fromhex`
rejects), so no frame — in particular no 36-byte frame — is produced for
the register range `0x0000 … 0x0000`. -/
theorem c1_counterexample :
    generateRequest ⟨some 0, some 0, []⟩ 1 = .error () ∧
      ∀ f : List Nat, generateRequest ⟨some 0, some 0, []⟩ 1 ≠ .ok (some f) := by
  refine ⟨by decide, ?_⟩
  intro f h
  rw [(by decide : generateRequest ⟨some 0, some 0, []⟩ 1 = .error ())] at h
  exact absurd h (by simp)

/-! ### Claim C6 -/


/-- Looking up after a Python dictionary store: the stored key maps to
the stored value, every other key is unchanged. -/
theorem lookup_upsert {α : Type} (l : List (String × α)) (k n : String) (v : α) :
    (upsert l k v).lookup n = if n = k then some v else l.lookup n := by
  induction l with
  | nil =>
    by_cases h : n = k
    · subst h; simp [upsert, List.lookup]
    · have hb : (n == k) = false := beq_eq_false_iff_ne.mpr h
      simp [upsert, List.lookup, hb, h]
  | cons hd tl ih =>
    obtain ⟨k', v'⟩ := hd
    rw [upsert]
    by_cases h1 : k' = k
    · subst h1
      rw [if_pos rfl]
      by_cases h2 : n = k'
      · subst h2; simp [List.lookup]
      · have hb : (n == k') = false := beq_eq_false_iff_ne.mpr h2
        simp [List.lookup, hb, h2]
    · rw [if_neg h1]
      by_cases h2 : n = k'
      · subst h2
        have h3 : ¬n = k := h1
        simp [List.lookup, h3]
      · have hb : (n == k') = false := beq_eq_false_iff_ne.mpr h2
        simp [List.lookup, hb, ih]

/-- If the per-range loop of one attempt ends with the connected flag
still up, every requested name (and every name already collected) has an
entry in the resulting output dictionary. -/
theorem fetchLoop_complete (proto : List (String × RegRange)) (env : IOEnv)
    (serial : Nat) :
    ∀ (l : List String) (st : DevState) (acc : Output) (st2 : DevState) (out : Output),
      fetchLoop proto env serial l st acc = .done st2 out →
      st2.connected = true →
      ∀ n, (n ∈ l ∨ (acc.lookup n).isSome) → (out.lookup n).isSome := by
  intro l
  induction l with
  | nil =>
    intro st acc st2 out h hconn n hn
    rw [fetchLoop] at h
    simp only [FetchOut.done.injEq] at h
    obtain ⟨_, h2⟩ := h
    subst h2
    rcases hn with hmem | hsome
    · exact absurd hmem (List.not_mem_nil n)
    · exact hsome
  | cons name rest ih =>
    intro st acc st2 out h hconn n hn
    rw [fetchLoop] at h
    cases hlook : proto.lookup name with
    | none => rw [hlook] at h; simp at h
    | some rr =>
      rw [hlook] at h
      simp only at h
      cases hgen : generateRequest rr serial with
      | error e => rw [hgen] at h; simp at h
      | ok ob =>
        rw [hgen] at h
        cases ob with
        | none =>
          simp only [FetchOut.done.injEq] at h
          obtain ⟨h1, _⟩ := h
          rw [← h1] at hconn
          simp at hconn
        | some frame =>
          simp only at h
          by_cases hsend : env.sends st.sIdx = false
          · rw [if_pos hsend] at h
            simp only [FetchOut.done.injEq] at h
            obtain ⟨h1, _⟩ := h
            rw [← h1] at hconn
            simp at hconn
          · rw [if_neg hsend] at h
            cases hread : readRegisterRange env { st with sIdx := st.sIdx + 1 } rr with
            | mk vals? st3 =>
              rw [hread] at h
              cases vals? with
              | none =>
                simp only [FetchOut.done.injEq] at h
                obtain ⟨h1, _⟩ := h
                rw [← h1] at hconn
                simp at hconn
              | some vals =>
                simp only at h
                by_cases hvals : vals ≠ []
                · rw [if_pos hvals] at h
                  refine ih st3 (upsert acc name vals) st2 out h hconn n ?_
                  rcases hn with hmem | hsome
                  · rcases List.mem_cons.mp hmem with h2 | h2
                    · subst h2
                      right
                      rw [lookup_upsert, if_pos rfl]
                      rfl
                    · exact Or.inl h2
                  · right
                    rw [lookup_upsert]
                    by_cases h4 : n = name
                    · rw [if_pos h4]; rfl
                    · rw [if_neg h4]; exact hsome
                · rw [if_neg hvals] at h
                  simp only [FetchOut.done.injEq] at h
                  obtain ⟨h1, _⟩ := h
                  rw [← h1] at hconn
                  simp at hconn

/-- A successful sanity check returns the checked output itself, and the
plausibility gate accepted it. -/
theorem sanityCheck_success (sysSize : ℚ) (names : List String) (st : DevState)
    (out : Output) (st3 : DevState) (o : Output)
    (h : sanityCheck sysSize names st out = (st3, .success o)) :
    o = out ∧ plausibilityOk sysSize out := by
  rw [sanityCheck] at h
  cases hpvo : out.lookup "PVOutput" with
  | none => rw [hpvo] at h; simp at h
  | some pvo =>
    rw [hpvo] at h
    simp only at h
    cases hp1 : pvo.lookup "Power_PV1" with
    | none => rw [hp1] at h; simp at h
    | some p1 =>
      rw [hp1] at h
      simp only at h
      cases hp2 : pvo.lookup "Power_PV2" with
      | none => rw [hp2] at h; simp at h
      | some p2 =>
        rw [hp2] at h
        simp only at h
        by_cases hz : sysSize ≠ 0
        · rw [if_pos hz] at h
          cases hett : out.lookup "EnergyTodayTotals" with
          | none => rw [hett] at h; simp at h
          | some ett =>
            rw [hett] at h
            simp only at h
            cases he : ett.lookup "PV_Generation_Today" with
            | none => rw [he] at h; simp at h
            | some e =>
              rw [he] at h
              simp only at h
              by_cases hbad : e > 10 * sysSize ∨ p1 + p2 > 1200 * sysSize
              · rw [if_pos hbad] at h; simp at h
              · rw [if_neg hbad] at h
                simp only [Prod.mk.injEq, AttemptOut.success.injEq] at h
                refine ⟨h.2.symm, pvo, p1, p2, hpvo, hp1, hp2, fun _ => ⟨ett, e, hett, he, hbad⟩⟩
        · rw [if_neg hz] at h
          simp only [Prod.mk.injEq, AttemptOut.success.injEq] at h
          refine ⟨h.2.symm, pvo, p1, p2, hpvo, hp1, hp2, fun hzz => absurd hzz hz⟩

/-- A successful attempt carries a complete and plausible output. -/
theorem attempt_success (proto : List (String × RegRange)) (env : IOEnv)
    (serial : Nat) (sysSize : ℚ) (names : List String) (st st1 : DevState)
    (out : Output)
    (h : attempt proto env serial sysSize names st = (st1, .success out)) :
    (∀ n ∈ names, (out.lookup n).isSome) ∧ plausibilityOk sysSize out := by
  rw [attempt] at h
  rw [attemptAfterConnect] at h
  by_cases hc : (if st.connected then st else connectStep env st).connected = false
  · rw [if_pos hc] at h; simp at h
  · rw [if_neg hc] at h
    cases hf : fetchLoop proto env serial names
        (if st.connected then st else connectStep env st) [] with
    | raised => rw [hf] at h; simp at h
    | done st2 out2 =>
      rw [hf] at h
      simp only at h
      by_cases h2 : st2.connected = false
      · rw [if_pos h2] at h; simp at h
      · rw [if_neg h2] at h
        obtain ⟨ho, hpl⟩ := sanityCheck_success sysSize names st2 out2 st1 out h
        subst ho
        refine ⟨fun n hn => ?_, hpl⟩
        refine fetchLoop_complete proto env serial names _ [] st2 out hf ?_ n (Or.inl hn)
        cases h3 : st2.connected with
        | false => exact absurd h3 h2
        | true => rfl

/-- Whatever the retry loop returns as a successful poll came from a
successful attempt. -/
theorem pollLoop_ok_some (proto : List (String × RegRange)) (env : IOEnv)
    (serial : Nat) (sysSize : ℚ) (names : List String) :
    ∀ (tries : List Nat) (st : DevState) (out : Output),
      (pollLoop proto env serial sysSize names tries st).1 = .ok (some out) →
      (∀ n ∈ names, (out.lookup n).isSome) ∧ plausibilityOk sysSize out := by
  intro tries
  induction tries with
  | nil => intro st out h; rw [pollLoop] at h; simp at h
  | cons t rest ih =>
    intro st out h
    rw [pollLoop] at h
    cases ha : attempt proto env serial sysSize names st with
    | mk st1 r =>
      rw [ha] at h
      cases r with
      | retry => exact ih st1 out h
      | raised => simp at h
      | success o =>
        simp only [Except.ok.injEq, Option.some.injEq] at h
        subst h
        exact attempt_success proto env serial sysSize names st st1 o ha

/-- Membership survives the required-ranges loop (it only appends). -/
theorem mem_addRequired (l : List String) (r : String) (hr : r ∈ l) :
    r ∈ addRequired l := by
  rw [addRequired]
  by_cases h1 : "EnergyTodayTotals" ∈ l
  · rw [if_pos h1]
    by_cases h2 : "PVOutput" ∈ l <;> simp [h1, h2, hr]
  · rw [if_neg h1]
    by_cases h2 : "PVOutput" ∈ l ++ ["EnergyTodayTotals"] <;>
      simp [h1, h2, List.mem_append, hr]

/-- The `remove`-while-iterating loop of lines 168-170 never drops a name
that the register map does contain: `remove` deletes the first occurrence
of the currently inspected name, which is always a name absent from the
map, hence a different string. -/
theorem mem_removeLoop (proto : List (String × RegRange)) (r : String)
    (hv : (proto.lookup r).isSome) :
    ∀ (fuel i : Nat) (l : List String), r ∈ l → r ∈ removeLoop proto fuel i l := by
  intro fuel
  induction fuel with
  | zero => intro i l h; exact h
  | succ fuel ih =>
    intro i l h
    rw [removeLoop]
    by_cases hi : i < l.length
    · rw [dif_pos hi]
      by_cases hx : (proto.lookup (l.get ⟨i, hi⟩)).isSome
      · rw [if_pos hx]
        exact ih (i + 1) l h
      · rw [if_neg hx]
        refine ih (i + 1) _ ?_
        refine (List.mem_erase_of_ne ?_).mpr h
        intro hc
        rw [hc] at hv
        exact hx hv
    · rw [dif_neg hi]
      exact h

/-- A requested name present in the register map survives normalisation. -/
theorem mem_normalizeRequested (proto : List (String × RegRange))
    (requested : List String) (r : String) (hr : r ∈ requested)
    (hv : (proto.lookup r).isSome) :
    r ∈ normalizeRequested proto requested := by
  rw [normalizeRequested]
  exact mem_removeLoop proto r hv _ 0 _
    (mem_addRequired _ r (List.mem_dedup.mpr hr))

/-- Claim C6: a poll result that is actually returned is complete: for
every requested range name that the register map defines, the returned
result contains an entry; and the plausibility gate accepted the result
(the power fields are present, and under a nonzero configured capacity
the energy-today field is present and neither bound was exceeded).
Failure to fetch any range aborts the attempt instead, so no partial
result is ever returned. -/
theorem c6_complete_or_nothing (proto : List (String × RegRange)) (env : IOEnv)
    (serial : Nat) (sysSize : ℚ) (requested : List String) (out : Output)
    (h : (getRegisterRangeData proto env serial sysSize requested).1 = .ok (some out)) :
    (∀ r ∈ requested, (proto.lookup r).isSome → (out.lookup r).isSome) ∧
      plausibilityOk sysSize out := by
  rw [getRegisterRangeData] at h
  have hmain := pollLoop_ok_some proto env serial sysSize
    (normalizeRequested proto requested) (pyRange 1 maxRetries) ⟨false, 0, 0, 0⟩ out h
  exact ⟨fun r hr hva => hmain.1 r (mem_normalizeRequested proto requested r hr hva),
    hmain.2⟩


/-- Witness for claim C6 at a concrete input: a poll of both ranges
against perfect I/O succeeds (capacity 0 disables the plausibility
bounds, as the source documents), and the theorem yields completeness
and the accepted gate for its output. -/
theorem c6_witness :
    (∀ r ∈ ["PVOutput", "EnergyTodayTotals"],
      ((protoFull.lookup r).isSome) → ((outWitness.lookup r).isSome)) ∧
      plausibilityOk 0 outWitness :=
  c6_complete_or_nothing protoFull envGoodBoth 0x12345678 0
    ["PVOutput", "EnergyTodayTotals"] outWitness rfl

end Sofar
